import Mathlib

/-!
# DomainMapping synchronisation of the container-app operator

A shallow embedding of `internals/utils/knative_domain_mapping.go`.

* The Kubernetes / Knative object types come from libraries the operator imports; they are
  rendered as plain records carrying the fields the program reads or writes, together with a
  few fields it never touches so that frame statements say something.
* `client.Client` is an interface the functions receive as an argument.  It is rendered as a
  record of operations over an arbitrary store state `σ`; every write returns the error (if any)
  and the next store state.  Reads do not change the store.
* `context.Context` and `logr.Logger` arguments are dropped: the functions only pass the
  context on and only write log lines, neither of which influences a result or a store call.
* Every store call is appended to a call log, so that "how many calls, with which arguments"
  is a statement about a value.
-/

namespace CappOperator

/-! ## Object model -/

/-- Kubernetes `metav1.TypeMeta`. -/
structure TypeMeta where
  Kind : String
  APIVersion : String
deriving DecidableEq, Repr

/-- Kubernetes `metav1.ObjectMeta`; Go maps are association lists. -/
structure ObjectMeta where
  Name : String
  Namespace : String
  UID : String
  ResourceVersion : String
  Generation : Int
  Labels : List (String × String)
  Annotations : List (String × String)
deriving DecidableEq, Repr

/-- Knative `duckv1.KReference`. -/
structure KReference where
  Kind : String
  Namespace : String
  Name : String
  APIVersion : String
  Group : String
deriving DecidableEq, Repr

/-- Knative `SecretTLS`. -/
structure SecretTLS where
  SecretName : String
deriving DecidableEq, Repr

/-- Knative `DomainMappingSpec`; the `*SecretTLS` pointer is an `Option`. -/
structure DomainMappingSpec where
  Ref : KReference
  TLS : Option SecretTLS
deriving DecidableEq, Repr

/-- Knative `DomainMappingStatus`, owned by the Knative controller. -/
structure DomainMappingStatus where
  ObservedGeneration : Int
  Conditions : List (String × String)
  URL : String
deriving DecidableEq, Repr

/-- Knative `DomainMapping`; the Go struct embeds `TypeMeta` and `ObjectMeta`. -/
structure DomainMapping extends TypeMeta, ObjectMeta where
  Spec : DomainMappingSpec
  Status : DomainMappingStatus
deriving DecidableEq, Repr

/-- Modelled from the spec: the route part of the Capp type of `api/v1alpha1`, which is not
among the sources; `Hostname` is the only field the functions read. -/
structure RouteSpec where
  Hostname : String
  TlsEnabled : Bool
deriving DecidableEq, Repr

/-- Modelled from the spec: the Capp specification of `api/v1alpha1` (workload settings and the
optional route). -/
structure CappSpec where
  Image : String
  ScaleMetric : String
  RouteSpec : RouteSpec
deriving DecidableEq, Repr

/-- Modelled from the spec: the Capp descriptor of `api/v1alpha1`; it embeds `TypeMeta` and
`ObjectMeta`, so `capp.Name` and `capp.Namespace` are the promoted metadata fields. -/
structure Capp extends TypeMeta, ObjectMeta where
  Spec : CappSpec
deriving DecidableEq, Repr

/-- Kubernetes `types.NamespacedName`. -/
structure NamespacedName where
  Namespace : String
  Name : String
deriving DecidableEq, Repr

/-- Kubernetes `schema.GroupVersion`. -/
structure GroupVersion where
  Group : String
  Version : String
deriving DecidableEq, Repr

/-- Kubernetes `GroupVersion.String`. -/
def GroupVersion.String (gv : GroupVersion) : String :=
  if gv.Group.length > 0 then gv.Group ++ "/" ++ gv.Version else gv.Version

/-- Knative `knativev1.SchemeGroupVersion` (serving, version v1). -/
def knativev1.SchemeGroupVersion : GroupVersion :=
  { Group := "serving.knative.dev", Version := "v1" }

/-! ## Errors -/

/-- Kubernetes `metav1.StatusReason` (the reasons relevant to a typed client). -/
inductive StatusReason where
  | NotFound
  | AlreadyExists
  | Conflict
  | Invalid
  | Timeout
  | InternalError
  | Unknown
deriving DecidableEq, Repr

/-- An API error as returned by the client. -/
structure StatusError where
  Reason : StatusReason
  Message : String
deriving DecidableEq, Repr

/-- Kubernetes `errors.IsNotFound`. -/
def IsNotFound (err : StatusError) : Bool :=
  decide (err.Reason = StatusReason.NotFound)

/-- Kubernetes `errors.IsConflict`. -/
def IsConflict (err : StatusError) : Bool :=
  decide (err.Reason = StatusReason.Conflict)

/-! ## The storage collaborator -/

/-- Operations of `client.Client` the functions use, over a store state `σ`. -/
structure Client (σ : Type) where
  Get : σ → NamespacedName → Except StatusError DomainMapping
  Create : σ → DomainMapping → Option StatusError × σ
  Update : σ → DomainMapping → Option StatusError × σ
  Delete : σ → DomainMapping → Option StatusError × σ

/-- One call issued to the store. -/
inductive Call where
  | get (key : NamespacedName)
  | create (obj : DomainMapping)
  | update (obj : DomainMapping)
  | delete (obj : DomainMapping)
deriving DecidableEq, Repr

/-- Reads. -/
def Call.isRead : Call → Bool
  | Call.get _ => true
  | _ => false

/-- Writes: create, update or delete. -/
def Call.isWrite : Call → Bool
  | Call.get _ => false
  | _ => true

/-- The store together with the log of the calls issued so far. -/
structure World (σ : Type) where
  store : σ
  calls : List Call

/-- A logged `r.Get`. -/
def rGet {σ : Type} (r : Client σ) (w : World σ) (key : NamespacedName) :
    Except StatusError DomainMapping × World σ :=
  (r.Get w.store key, { store := w.store, calls := w.calls ++ [Call.get key] })

/-- A logged `r.Create`. -/
def rCreate {σ : Type} (r : Client σ) (w : World σ) (obj : DomainMapping) :
    Option StatusError × World σ :=
  ((r.Create w.store obj).1,
    { store := (r.Create w.store obj).2, calls := w.calls ++ [Call.create obj] })

/-- A logged `r.Update`. -/
def rUpdate {σ : Type} (r : Client σ) (w : World σ) (obj : DomainMapping) :
    Option StatusError × World σ :=
  ((r.Update w.store obj).1,
    { store := (r.Update w.store obj).2, calls := w.calls ++ [Call.update obj] })

/-- A logged `r.Delete`. -/
def rDelete {σ : Type} (r : Client σ) (w : World σ) (obj : DomainMapping) :
    Option StatusError × World σ :=
  ((r.Delete w.store obj).1,
    { store := (r.Delete w.store obj).2, calls := w.calls ++ [Call.delete obj] })

/-! ## The program -/

/-- The annotation key of the ownership back-reference. -/
def CappResourceKey : String := "dana.io/parent-capp"

/-- Builds the DomainMapping a Capp asks for. -/
def PrepareKnativeDomainMapping (capp : Capp) : DomainMapping :=
  { Kind := "",
    APIVersion := "",
    Name := capp.Spec.RouteSpec.Hostname,
    Namespace := capp.Namespace,
    UID := "",
    ResourceVersion := "",
    Generation := 0,
    Labels := [],
    Annotations := [(CappResourceKey, capp.Name)],
    Spec :=
      { Ref :=
          { APIVersion := knativev1.SchemeGroupVersion.String,
            Name := capp.Name,
            Kind := "Service",
            Namespace := "",
            Group := "" },
        TLS := none },
    Status := { ObservedGeneration := 0, Conditions := [], URL := "" } }

/-- Issues the create and hands its error back. -/
def CreateKnativeDomainMapping {σ : Type} (domainMapping : DomainMapping) (r : Client σ)
    (w : World σ) : Option StatusError × World σ :=
  match rCreate r w domainMapping with
  | (some err, w1) => (some err, w1)
  | (none, w1) => (none, w1)

/-- Compares the specs; on a difference writes the desired spec onto the live object and
issues the update. -/
def UpdateKnativeDomainMapping {σ : Type} (domainMapping oldDomainMapping : DomainMapping)
    (r : Client σ) (w : World σ) : Option StatusError × World σ :=
  if oldDomainMapping.Spec = domainMapping.Spec then
    (none, w)
  else
    match rUpdate r w { oldDomainMapping with Spec := domainMapping.Spec } with
    | (some err, w1) =>
      if IsConflict err then (some err, w1) else (some err, w1)
    | (none, w1) => (none, w1)

/-- Creates the DomainMapping of a Capp, or updates the one that exists. -/
def CreateOrUpdateKnativeDomainMapping {σ : Type} (capp : Capp) (r : Client σ)
    (w : World σ) : Option StatusError × World σ :=
  if capp.Spec.RouteSpec.Hostname = "" then
    (none, w)
  else
    let knativeDomainMappingFromCapp := PrepareKnativeDomainMapping capp
    match rGet r w { Namespace := capp.Namespace, Name := capp.Spec.RouteSpec.Hostname } with
    | (Except.error err, w1) =>
      if IsNotFound err then
        match CreateKnativeDomainMapping knativeDomainMappingFromCapp r w1 with
        | (some err1, w2) => (some err1, w2)
        | (none, w2) => (none, w2)
      else
        (some err, w1)
    | (Except.ok knativeDomainMapping, w1) =>
      match UpdateKnativeDomainMapping knativeDomainMappingFromCapp knativeDomainMapping r w1 with
      | (some err, w2) => (some err, w2)
      | (none, w2) => (none, w2)

/-- Deletes the DomainMapping of a Capp when it exists. -/
def DeleteKnativeDomainMapping {σ : Type} (capp : Capp) (r : Client σ)
    (w : World σ) : Option StatusError × World σ :=
  if capp.Spec.RouteSpec.Hostname = "" then
    (none, w)
  else
    match rGet r w { Name := capp.Spec.RouteSpec.Hostname, Namespace := capp.Namespace } with
    | (Except.error err, w1) =>
      if !IsNotFound err then (some err, w1) else (none, w1)
    | (Except.ok knativeDomainMapping, w1) =>
      match rDelete r w1 knativeDomainMapping with
      | (some err, w2) => (some err, w2)
      | (none, w2) => (none, w2)

/-! ## A reference store

The objects held, each addressed by its own namespace and name.  It reads back exactly what was
last written.  `faultyClient` is the same store behind a client that can be told to fail a call,
which stands for interference by other writers and for transport errors. -/

/-- The identity under which the store files an object. -/
def keyOf (obj : DomainMapping) : NamespacedName :=
  { Namespace := obj.Namespace, Name := obj.Name }

/-- The contents of the reference store. -/
abbrev Store := List DomainMapping

/-- First object filed under a key. -/
def Store.lookup (s : Store) (key : NamespacedName) : Option DomainMapping :=
  s.find? (fun o => decide (keyOf o = key))

/-- The error of a missing object. -/
def notFoundError (key : NamespacedName) : StatusError :=
  { Reason := StatusReason.NotFound, Message := key.Name ++ " not found" }

/-- The error of a create over an existing object. -/
def alreadyExistsError (key : NamespacedName) : StatusError :=
  { Reason := StatusReason.AlreadyExists, Message := key.Name ++ " already exists" }

/-- The error of an update carrying a stale resource version. -/
def conflictError (key : NamespacedName) : StatusError :=
  { Reason := StatusReason.Conflict, Message := key.Name ++ " was modified" }

/-- The reference store as a client. -/
def memClient : Client Store where
  Get s key :=
    match s.lookup key with
    | some obj => Except.ok obj
    | none => Except.error (notFoundError key)
  Create s obj :=
    match s.lookup (keyOf obj) with
    | some _ => (some (alreadyExistsError (keyOf obj)), s)
    | none => (none, obj :: s)
  Update s obj :=
    match s.lookup (keyOf obj) with
    | none => (some (notFoundError (keyOf obj)), s)
    | some live =>
      if obj.ResourceVersion ≠ "" ∧ obj.ResourceVersion ≠ live.ResourceVersion then
        (some (conflictError (keyOf obj)), s)
      else
        (none, s.map (fun o => if keyOf o = keyOf obj then obj else o))
  Delete s obj :=
    match s.lookup (keyOf obj) with
    | none => (some (notFoundError (keyOf obj)), s)
    | some _ => (none, s.filter (fun o => decide (keyOf o ≠ keyOf obj)))

/-- Errors to inject, per operation. -/
structure Faults where
  onGet : Option StatusError
  onCreate : Option StatusError
  onUpdate : Option StatusError
  onDelete : Option StatusError

/-- The reference store behind a client that fails the operations named in `f`; a failed
write leaves the store as it was. -/
def faultyClient (f : Faults) : Client Store where
  Get s key :=
    match f.onGet with
    | some e => Except.error e
    | none => memClient.Get s key
  Create s obj :=
    match f.onCreate with
    | some e => (some e, s)
    | none => memClient.Create s obj
  Update s obj :=
    match f.onUpdate with
    | some e => (some e, s)
    | none => memClient.Update s obj
  Delete s obj :=
    match f.onDelete with
    | some e => (some e, s)
    | none => memClient.Delete s obj

/-! ## Properties of a store and of its contents -/

/-- A read answers with the object filed under the key asked for. -/
def Client.GetByKey {σ : Type} (r : Client σ) : Prop :=
  ∀ (s : σ) (key : NamespacedName) (obj : DomainMapping),
    r.Get s key = Except.ok obj → keyOf obj = key

/-- A read returns exactly what was last written: after a successful create or update of an
object, reading its identity yields that object. -/
def Client.ReadsBackWrites {σ : Type} (r : Client σ) : Prop :=
  (∀ (s s1 : σ) (obj : DomainMapping),
      r.Create s obj = (none, s1) → r.Get s1 (keyOf obj) = Except.ok obj) ∧
  (∀ (s s1 : σ) (obj : DomainMapping),
      r.Update s obj = (none, s1) → r.Get s1 (keyOf obj) = Except.ok obj)

/-- A successful create or update changes nothing under any other identity. -/
def Client.WritesAreLocal {σ : Type} (r : Client σ) : Prop :=
  (∀ (s s1 : σ) (obj : DomainMapping) (key : NamespacedName),
      r.Create s obj = (none, s1) → key ≠ keyOf obj → r.Get s1 key = r.Get s key) ∧
  (∀ (s s1 : σ) (obj : DomainMapping) (key : NamespacedName),
      r.Update s obj = (none, s1) → key ≠ keyOf obj → r.Get s1 key = r.Get s key)

/-- The store holds no object under `key`: a read fails with not-found. -/
def Client.Absent {σ : Type} (r : Client σ) (s : σ) (key : NamespacedName) : Prop :=
  ∃ e, r.Get s key = Except.error e ∧ IsNotFound e = true

/-- After a successful delete of an object the store holds nothing under its identity. -/
def Client.DeleteRemoves {σ : Type} (r : Client σ) : Prop :=
  ∀ (s s1 : σ) (obj : DomainMapping),
    r.Delete s obj = (none, s1) → r.Absent s1 (keyOf obj)

/-- The object lies in the namespace `ns` and its back-reference annotation names `owner`. -/
def OwnedBy (ns owner : String) (obj : DomainMapping) : Prop :=
  obj.Namespace = ns ∧ obj.Annotations.lookup CappResourceKey = some owner

instance (ns owner : String) (obj : DomainMapping) : Decidable (OwnedBy ns owner obj) := by
  unfold OwnedBy; exact inferInstance

/-- No object held by the store carries the back-reference annotation with value `owner`. -/
def Client.NoneAnnotated {σ : Type} (r : Client σ) (s : σ) (owner : String) : Prop :=
  ∀ (key : NamespacedName) (obj : DomainMapping),
    r.Get s key = Except.ok obj → obj.Annotations.lookup CappResourceKey ≠ some owner

/-- At most one identity of the store holds an object of namespace `ns` annotated with
`owner`. -/
def Client.AtMostOneOwned {σ : Type} (r : Client σ) (s : σ) (ns owner : String) : Prop :=
  ∀ (k1 k2 : NamespacedName) (o1 o2 : DomainMapping),
    r.Get s k1 = Except.ok o1 → r.Get s k2 = Except.ok o2 →
    OwnedBy ns owner o1 → OwnedBy ns owner o2 → k1 = k2

/-- Every object of the store annotated with `owner` is filed under `key`. -/
def Client.AnnotatedOnlyAt {σ : Type} (r : Client σ) (s : σ) (owner : String)
    (key : NamespacedName) : Prop :=
  ∀ (k : NamespacedName) (obj : DomainMapping),
    r.Get s k = Except.ok obj → obj.Annotations.lookup CappResourceKey = some owner → k = key

/-! ## Sequences of invocations -/

/-- The two entry points a synchronisation pass can invoke. -/
inductive SyncOp where
  | createOrUpdate
  | delete
deriving DecidableEq, Repr

/-- One invocation. -/
def runOp {σ : Type} (r : Client σ) (capp : Capp) (op : SyncOp) (w : World σ) :
    Option StatusError × World σ :=
  match op with
  | SyncOp.createOrUpdate => CreateOrUpdateKnativeDomainMapping capp r w
  | SyncOp.delete => DeleteKnativeDomainMapping capp r w

/-- A pass: the given invocations in order, all on the same Capp; `none` as soon as one of
them returns an error. -/
def runPass {σ : Type} (r : Client σ) (capp : Capp) : List SyncOp → World σ → Option (World σ)
  | [], w => some w
  | op :: ops, w =>
    match runOp r capp op w with
    | (none, w1) => runPass r capp ops w1
    | (some _, _) => none

/-- Successive `CreateOrUpdateKnativeDomainMapping` passes, one per Capp of the list; `none`
as soon as a pass returns an error. -/
def syncAll {σ : Type} (r : Client σ) : List Capp → World σ → Option (World σ)
  | [], w => some w
  | capp :: rest, w =>
    match CreateOrUpdateKnativeDomainMapping capp r w with
    | (none, w1) => syncAll r rest w1
    | (some _, _) => none

/-- The Capp with its route hostname set to `h`, everything else kept. -/
def Capp.withHostname (capp : Capp) (h : String) : Capp :=
  { capp with Spec := { capp.Spec with RouteSpec := { capp.Spec.RouteSpec with Hostname := h } } }

/-- The identity of the DomainMapping of a Capp. -/
def Capp.domainMappingKey (capp : Capp) : NamespacedName :=
  { Namespace := capp.Namespace, Name := capp.Spec.RouteSpec.Hostname }

/-! ## Concrete inputs -/

/-- A Capp `demo` of namespace `team-a` with no hostname. -/
def demoCapp : Capp :=
  { Kind := "Capp", APIVersion := "rcs.dana.io/v1alpha1",
    Name := "demo", Namespace := "team-a", UID := "u1", ResourceVersion := "7", Generation := 1,
    Labels := [], Annotations := [],
    Spec := { Image := "nginx", ScaleMetric := "cpu",
              RouteSpec := { Hostname := "", TlsEnabled := false } } }

/-- A store with no objects and no calls logged. -/
def emptyWorld : World Store := { store := [], calls := [] }

/-- A live DomainMapping at (team-a, foo) whose spec is the one `demo` asks for, with metadata
and status assigned by others. -/
def liveSame : DomainMapping :=
  { Kind := "DomainMapping", APIVersion := "serving.knative.dev/v1alpha1",
    Name := "foo", Namespace := "team-a", UID := "u9", ResourceVersion := "41", Generation := 3,
    Labels := [("team", "a")], Annotations := [("note", "edited by hand")],
    Spec := (PrepareKnativeDomainMapping (demoCapp.withHostname "foo")).Spec,
    Status := { ObservedGeneration := 3, Conditions := [("Ready", "True")],
                URL := "http://foo" } }

/-- A live DomainMapping at (team-a, foo) that targets another service. -/
def liveOther : DomainMapping :=
  { liveSame with
    Spec := { Ref := { APIVersion := "serving.knative.dev/v1", Name := "other",
                       Kind := "Service", Namespace := "team-a", Group := "" },
              TLS := some { SecretName := "cert" } } }

/-- A client whose every update is refused as a conflict. -/
def conflictingClient : Client Store :=
  faultyClient { onGet := none, onCreate := none,
                 onUpdate := some (conflictError (keyOf liveOther)), onDelete := none }

/-- A client whose every delete answers not-found, as when the object vanished after it was
read. -/
def vanishingClient : Client Store :=
  faultyClient { onGet := none, onCreate := none, onUpdate := none,
                 onDelete := some (notFoundError (keyOf liveSame)) }

/-- A store that accepts the delete of an object it holds and keeps the object readable, as
when a finalizer is pending on it; every other operation is the reference store's. -/
def lingeringClient : Client Store where
  Get := memClient.Get
  Create := memClient.Create
  Update := memClient.Update
  Delete s obj :=
    match s.lookup (keyOf obj) with
    | none => (some (notFoundError (keyOf obj)), s)
    | some _ => (none, s)

/-- A client whose every read fails with a server error. -/
def brokenReadClient : Client Store :=
  faultyClient { onGet := some { Reason := StatusReason.InternalError, Message := "boom" },
                 onCreate := none, onUpdate := none, onDelete := none }

/-! ## Unfolding lemmas -/

theorem createKnativeDomainMapping_eq {σ : Type} (dm : DomainMapping) (r : Client σ)
    (w : World σ) :
    CreateKnativeDomainMapping dm r w
      = ((r.Create w.store dm).1,
          { store := (r.Create w.store dm).2, calls := w.calls ++ [Call.create dm] }) := by
  unfold CreateKnativeDomainMapping rCreate
  cases h : (r.Create w.store dm).1 <;> rfl

theorem updateKnativeDomainMapping_same {σ : Type} (dm old : DomainMapping) (r : Client σ)
    (w : World σ) (h : old.Spec = dm.Spec) :
    UpdateKnativeDomainMapping dm old r w = (none, w) := by
  unfold UpdateKnativeDomainMapping
  rw [if_pos h]

theorem updateKnativeDomainMapping_diff {σ : Type} (dm old : DomainMapping) (r : Client σ)
    (w : World σ) (h : old.Spec ≠ dm.Spec) :
    UpdateKnativeDomainMapping dm old r w
      = ((r.Update w.store { old with Spec := dm.Spec }).1,
          { store := (r.Update w.store { old with Spec := dm.Spec }).2,
            calls := w.calls ++ [Call.update { old with Spec := dm.Spec }] }) := by
  unfold UpdateKnativeDomainMapping rUpdate
  rw [if_neg h]
  cases h1 : (r.Update w.store { old with Spec := dm.Spec }).1 <;> simp

theorem createOrUpdate_empty {σ : Type} (capp : Capp) (r : Client σ) (w : World σ)
    (h : capp.Spec.RouteSpec.Hostname = "") :
    CreateOrUpdateKnativeDomainMapping capp r w = (none, w) := by
  unfold CreateOrUpdateKnativeDomainMapping
  rw [if_pos h]

theorem createOrUpdate_getError {σ : Type} (capp : Capp) (r : Client σ) (w : World σ)
    (err : StatusError) (h : capp.Spec.RouteSpec.Hostname ≠ "")
    (hget : r.Get w.store capp.domainMappingKey = Except.error err) :
    CreateOrUpdateKnativeDomainMapping capp r w
      = if IsNotFound err = true then
          CreateKnativeDomainMapping (PrepareKnativeDomainMapping capp) r
            { store := w.store, calls := w.calls ++ [Call.get capp.domainMappingKey] }
        else
          (some err, { store := w.store, calls := w.calls ++ [Call.get capp.domainMappingKey] }) := by
  unfold Capp.domainMappingKey at hget
  unfold CreateOrUpdateKnativeDomainMapping rGet Capp.domainMappingKey
  rw [if_neg h]
  simp only [hget]
  split
  · rename_i hnf
    cases hc : CreateKnativeDomainMapping (PrepareKnativeDomainMapping capp) r
      { store := w.store,
        calls := w.calls ++ [Call.get
          { Namespace := capp.Namespace, Name := capp.Spec.RouteSpec.Hostname }] } with
    | mk e w2 => cases e <;> rfl
  · rfl

theorem createOrUpdate_getOk {σ : Type} (capp : Capp) (r : Client σ) (w : World σ)
    (live : DomainMapping) (h : capp.Spec.RouteSpec.Hostname ≠ "")
    (hget : r.Get w.store capp.domainMappingKey = Except.ok live) :
    CreateOrUpdateKnativeDomainMapping capp r w
      = UpdateKnativeDomainMapping (PrepareKnativeDomainMapping capp) live r
          { store := w.store, calls := w.calls ++ [Call.get capp.domainMappingKey] } := by
  unfold Capp.domainMappingKey at hget
  unfold CreateOrUpdateKnativeDomainMapping rGet Capp.domainMappingKey
  rw [if_neg h]
  simp only [hget]
  cases hc : UpdateKnativeDomainMapping (PrepareKnativeDomainMapping capp) live r
      { store := w.store,
        calls := w.calls ++ [Call.get
          { Namespace := capp.Namespace, Name := capp.Spec.RouteSpec.Hostname }] } with
  | mk e w2 => cases e <;> rfl

theorem delete_empty {σ : Type} (capp : Capp) (r : Client σ) (w : World σ)
    (h : capp.Spec.RouteSpec.Hostname = "") :
    DeleteKnativeDomainMapping capp r w = (none, w) := by
  unfold DeleteKnativeDomainMapping
  rw [if_pos h]

theorem delete_getError {σ : Type} (capp : Capp) (r : Client σ) (w : World σ)
    (err : StatusError) (h : capp.Spec.RouteSpec.Hostname ≠ "")
    (hget : r.Get w.store capp.domainMappingKey = Except.error err) :
    DeleteKnativeDomainMapping capp r w
      = (if IsNotFound err = true then none else some err,
          { store := w.store, calls := w.calls ++ [Call.get capp.domainMappingKey] }) := by
  unfold Capp.domainMappingKey at hget
  unfold DeleteKnativeDomainMapping rGet Capp.domainMappingKey
  rw [if_neg h]
  simp only [hget]
  cases IsNotFound err <;> simp

theorem delete_getOk {σ : Type} (capp : Capp) (r : Client σ) (w : World σ)
    (live : DomainMapping) (h : capp.Spec.RouteSpec.Hostname ≠ "")
    (hget : r.Get w.store capp.domainMappingKey = Except.ok live) :
    DeleteKnativeDomainMapping capp r w
      = ((r.Delete w.store live).1,
          { store := (r.Delete w.store live).2,
            calls := w.calls ++ [Call.get capp.domainMappingKey, Call.delete live] }) := by
  unfold Capp.domainMappingKey at hget
  unfold DeleteKnativeDomainMapping rGet rDelete Capp.domainMappingKey
  rw [if_neg h]
  simp only [hget]
  cases h1 : (r.Delete w.store live).1 <;> simp

/-! ## The reference store obeys the store properties -/

theorem lookup_map_replace (s : Store) (obj : DomainMapping) (key : NamespacedName) :
    Store.lookup (s.map (fun o => if keyOf o = keyOf obj then obj else o)) key
      = if key = keyOf obj then (Store.lookup s key).map (fun _ => obj)
        else Store.lookup s key := by
  induction s with
  | nil => simp [Store.lookup]
  | cons a t ih =>
    unfold Store.lookup at ih ⊢
    by_cases ha : keyOf a = keyOf obj
    · by_cases hk : key = keyOf obj
      · subst hk
        simp [List.find?_cons, ha]
      · have hk1 : ¬ keyOf obj = key := fun h => hk h.symm
        have hk2 : ¬ keyOf a = key := fun h => hk (h.symm.trans ha)
        simpa [List.find?_cons, ha, hk, hk1, hk2] using ih
    · by_cases hk : key = keyOf obj
      · subst hk
        simpa [List.find?_cons, ha] using ih
      · by_cases hak : keyOf a = key
        · simp [List.find?_cons, ha, hk, hak]
        · simpa [List.find?_cons, ha, hk, hak] using ih

theorem lookup_filter_remove (s : Store) (k0 key : NamespacedName) :
    Store.lookup (s.filter (fun o => decide (keyOf o ≠ k0))) key
      = if key = k0 then none else Store.lookup s key := by
  induction s with
  | nil => simp [Store.lookup]
  | cons a t ih =>
    unfold Store.lookup at ih ⊢
    by_cases ha : keyOf a = k0
    · by_cases hk : key = k0
      · subst hk
        simp [List.filter_cons, ha]
      · have hk2 : ¬ keyOf a = key := fun h => hk (h.symm.trans ha)
        have hk3 : ¬ k0 = key := fun h => hk h.symm
        simpa [List.filter_cons, List.find?_cons, ha, hk, hk2, hk3] using ih
    · by_cases hk : key = k0
      · subst hk
        simp [List.filter_cons, List.find?_cons, ha]
      · by_cases hak : keyOf a = key
        · simp [List.filter_cons, List.find?_cons, ha, hk, hak]
        · simpa [List.filter_cons, List.find?_cons, ha, hk, hak] using ih

theorem memClient_get (s : Store) (key : NamespacedName) :
    memClient.Get s key
      = match Store.lookup s key with
        | some obj => Except.ok obj
        | none => Except.error (notFoundError key) := rfl

theorem memClient_getByKey : memClient.GetByKey := by
  intro s key obj h
  rw [memClient_get] at h
  cases hl : Store.lookup s key with
  | none => rw [hl] at h; cases h
  | some o =>
    rw [hl] at h
    cases h
    unfold Store.lookup at hl
    have := List.find?_some hl
    simpa using this

theorem memClient_create_ok (s s1 : Store) (obj : DomainMapping)
    (h : memClient.Create s obj = (none, s1)) : s1 = obj :: s := by
  simp only [memClient] at h
  cases hl : Store.lookup s (keyOf obj) with
  | none => rw [hl] at h; simpa using h.symm
  | some o => rw [hl] at h; simp at h

theorem memClient_update_ok (s s1 : Store) (obj : DomainMapping)
    (h : memClient.Update s obj = (none, s1)) :
    (∃ live, Store.lookup s (keyOf obj) = some live) ∧
      s1 = s.map (fun o => if keyOf o = keyOf obj then obj else o) := by
  simp only [memClient] at h
  cases hl : Store.lookup s (keyOf obj) with
  | none => rw [hl] at h; simp at h
  | some o =>
    rw [hl] at h
    refine ⟨⟨o, rfl⟩, ?_⟩
    by_cases hc : obj.ResourceVersion ≠ "" ∧ obj.ResourceVersion ≠ o.ResourceVersion
    · simp [hc] at h
    · simp only [if_neg hc] at h
      simpa using h.symm

theorem memClient_delete_ok (s s1 : Store) (obj : DomainMapping)
    (h : memClient.Delete s obj = (none, s1)) :
    s1 = s.filter (fun o => decide (keyOf o ≠ keyOf obj)) := by
  simp only [memClient] at h
  cases hl : Store.lookup s (keyOf obj) with
  | none => rw [hl] at h; simp at h
  | some o => rw [hl] at h; simpa using h.symm

theorem memClient_readsBackWrites : memClient.ReadsBackWrites := by
  constructor
  · intro s s1 obj h
    rw [memClient_create_ok s s1 obj h, memClient_get]
    simp [Store.lookup, List.find?_cons]
  · intro s s1 obj h
    obtain ⟨⟨live, hl⟩, rfl⟩ := memClient_update_ok s s1 obj h
    rw [memClient_get, lookup_map_replace, if_pos rfl, hl]
    rfl

theorem memClient_writesAreLocal : memClient.WritesAreLocal := by
  constructor
  · intro s s1 obj key h hk
    rw [memClient_create_ok s s1 obj h, memClient_get, memClient_get]
    have hk1 : ¬ keyOf obj = key := fun e => hk e.symm
    simp [Store.lookup, List.find?_cons, hk1]
  · intro s s1 obj key h hk
    obtain ⟨_, rfl⟩ := memClient_update_ok s s1 obj h
    rw [memClient_get, memClient_get, lookup_map_replace, if_neg hk]

theorem memClient_deleteRemoves : memClient.DeleteRemoves := by
  intro s s1 obj h
  rw [memClient_delete_ok s s1 obj h]
  refine ⟨notFoundError (keyOf obj), ?_, rfl⟩
  rw [memClient_get, lookup_filter_remove, if_pos rfl]

/-! ## Create or update -/

/-- C1: for a Capp with a non-empty hostname, when the read of the DomainMapping at (namespace,
hostname) fails with not-found, the calls issued are that read followed by exactly one create
of `PrepareKnativeDomainMapping capp`, and the result is the result of that create; when the
read fails with any other error, that error is returned and the read is the only call. -/
theorem C1_read_failure {σ : Type} (capp : Capp) (r : Client σ) (w : World σ)
    (err : StatusError) (hhost : capp.Spec.RouteSpec.Hostname ≠ "")
    (hget : r.Get w.store capp.domainMappingKey = Except.error err) :
    (IsNotFound err = true →
      CreateOrUpdateKnativeDomainMapping capp r w
        = ((r.Create w.store (PrepareKnativeDomainMapping capp)).1,
            { store := (r.Create w.store (PrepareKnativeDomainMapping capp)).2,
              calls := w.calls ++ [Call.get capp.domainMappingKey,
                                   Call.create (PrepareKnativeDomainMapping capp)] })) ∧
    (IsNotFound err = false →
      CreateOrUpdateKnativeDomainMapping capp r w
        = (some err,
            { store := w.store, calls := w.calls ++ [Call.get capp.domainMappingKey] })) := by
  rw [createOrUpdate_getError capp r w err hhost hget]
  constructor
  · intro hnf
    rw [if_pos hnf, createKnativeDomainMapping_eq]
    simp
  · intro hnf
    rw [if_neg (by simp [hnf])]

/-- Witness of C1 on the reference store (empty, so the read is a not-found and the create
succeeds) and on a client whose reads fail with a server error. -/
theorem C1_read_failure_witness :
    (demoCapp.withHostname "foo").Spec.RouteSpec.Hostname ≠ "" ∧
    CreateOrUpdateKnativeDomainMapping (demoCapp.withHostname "foo") memClient emptyWorld
      = (none,
          { store := [PrepareKnativeDomainMapping (demoCapp.withHostname "foo")],
            calls := [Call.get { Namespace := "team-a", Name := "foo" },
                      Call.create (PrepareKnativeDomainMapping (demoCapp.withHostname "foo"))] }) ∧
    CreateOrUpdateKnativeDomainMapping (demoCapp.withHostname "foo") brokenReadClient emptyWorld
      = (some { Reason := StatusReason.InternalError, Message := "boom" },
          { store := [], calls := [Call.get { Namespace := "team-a", Name := "foo" }] }) :=
  ⟨by decide,
   (C1_read_failure (demoCapp.withHostname "foo") memClient emptyWorld
      (notFoundError { Namespace := "team-a", Name := "foo" }) (by decide) rfl).1 rfl,
   (C1_read_failure (demoCapp.withHostname "foo") brokenReadClient emptyWorld
      { Reason := StatusReason.InternalError, Message := "boom" } (by decide) rfl).2 rfl⟩

/-- C2: for a Capp with a non-empty hostname, when the store holds at (namespace, hostname) an
object whose Spec equals the Spec of `PrepareKnativeDomainMapping capp`, whatever its metadata,
annotations and status, the function returns nil, the read is the only call it issues, and
the store is the one it started from. -/
theorem C2_equal_spec_no_write {σ : Type} (capp : Capp) (r : Client σ) (w : World σ)
    (live : DomainMapping) (hhost : capp.Spec.RouteSpec.Hostname ≠ "")
    (hget : r.Get w.store capp.domainMappingKey = Except.ok live)
    (hspec : live.Spec = (PrepareKnativeDomainMapping capp).Spec) :
    CreateOrUpdateKnativeDomainMapping capp r w
      = (none, { store := w.store, calls := w.calls ++ [Call.get capp.domainMappingKey] }) ∧
    ((CreateOrUpdateKnativeDomainMapping capp r w).2.calls.filter Call.isWrite
      = w.calls.filter Call.isWrite) := by
  rw [createOrUpdate_getOk capp r w live hhost hget,
    updateKnativeDomainMapping_same _ _ _ _ hspec]
  simp [Call.isWrite]

/-- Witness of C2: the live object carries foreign metadata, annotations and status. -/
theorem C2_equal_spec_no_write_witness :
    (demoCapp.withHostname "foo").Spec.RouteSpec.Hostname ≠ "" ∧
    memClient.Get [liveSame] (demoCapp.withHostname "foo").domainMappingKey
      = Except.ok liveSame ∧
    liveSame.Spec = (PrepareKnativeDomainMapping (demoCapp.withHostname "foo")).Spec ∧
    liveSame ≠ PrepareKnativeDomainMapping (demoCapp.withHostname "foo") ∧
    CreateOrUpdateKnativeDomainMapping (demoCapp.withHostname "foo") memClient
        { store := [liveSame], calls := [] }
      = (none, { store := [liveSame],
                 calls := [Call.get { Namespace := "team-a", Name := "foo" }] }) :=
  ⟨by decide, rfl, rfl, by decide,
   (C2_equal_spec_no_write (demoCapp.withHostname "foo") memClient
      { store := [liveSame], calls := [] } liveSame (by decide) rfl rfl).1⟩

/-- C3: for a Capp with a non-empty hostname, when the store holds at (namespace, hostname) an
object whose Spec differs from the desired one, the calls issued are the read followed by
exactly one update; the object passed to the update is the live object with its Spec replaced
by the desired Spec, every other field (type, name, namespace, annotations, labels, resource
version, status) being the live object's; the result is the result of that update. -/
theorem C3_update_replaces_only_spec {σ : Type} (capp : Capp) (r : Client σ) (w : World σ)
    (live : DomainMapping) (hhost : capp.Spec.RouteSpec.Hostname ≠ "")
    (hget : r.Get w.store capp.domainMappingKey = Except.ok live)
    (hspec : live.Spec ≠ (PrepareKnativeDomainMapping capp).Spec) :
    ∃ upd : DomainMapping,
      CreateOrUpdateKnativeDomainMapping capp r w
        = ((r.Update w.store upd).1,
            { store := (r.Update w.store upd).2,
              calls := w.calls ++ [Call.get capp.domainMappingKey, Call.update upd] }) ∧
      upd.Spec = (PrepareKnativeDomainMapping capp).Spec ∧
      upd.toTypeMeta = live.toTypeMeta ∧
      upd.toObjectMeta = live.toObjectMeta ∧
      upd.Name = live.Name ∧ upd.Namespace = live.Namespace ∧
      upd.Annotations = live.Annotations ∧
      upd.ResourceVersion = live.ResourceVersion ∧
      upd.Status = live.Status ∧
      upd = { live with Spec := (PrepareKnativeDomainMapping capp).Spec } := by
  refine ⟨{ live with Spec := (PrepareKnativeDomainMapping capp).Spec }, ?_,
    rfl, rfl, rfl, rfl, rfl, rfl, rfl, rfl, rfl⟩
  rw [createOrUpdate_getOk capp r w live hhost hget,
    updateKnativeDomainMapping_diff _ _ _ _ hspec]
  simp

/-- Witness of C3 on the reference store holding an object that targets another service and
carries foreign metadata and status: the update writes the desired Spec and keeps the rest. -/
theorem C3_update_replaces_only_spec_witness :
    (demoCapp.withHostname "foo").Spec.RouteSpec.Hostname ≠ "" ∧
    memClient.Get [liveOther] (demoCapp.withHostname "foo").domainMappingKey
      = Except.ok liveOther ∧
    liveOther.Spec ≠ (PrepareKnativeDomainMapping (demoCapp.withHostname "foo")).Spec ∧
    CreateOrUpdateKnativeDomainMapping (demoCapp.withHostname "foo") memClient
        { store := [liveOther], calls := [] }
      = (none,
          { store := [liveSame],
            calls := [Call.get { Namespace := "team-a", Name := "foo" },
                      Call.update liveSame] }) := by
  refine ⟨by decide, rfl, by decide, ?_⟩
  obtain ⟨upd, h, -, -, -, -, -, -, -, -, hupd⟩ :=
    C3_update_replaces_only_spec (demoCapp.withHostname "foo") memClient
      { store := [liveOther], calls := [] } liveOther (by decide) rfl (by decide)
  subst hupd
  exact h

/-- C4: whatever the Capp and however the store behaves, one invocation appends to the call
log at most one read and at most one write; when the update it issues is refused with a
conflict error, the calls are the read and that single update (no second attempt) and the
conflict error is what the function returns. -/
theorem C4_bounded_calls {σ : Type} (capp : Capp) (r : Client σ) (w : World σ) :
    ∃ new : List Call,
      (CreateOrUpdateKnativeDomainMapping capp r w).2.calls = w.calls ++ new ∧
      (new.filter Call.isRead).length ≤ 1 ∧
      (new.filter Call.isWrite).length ≤ 1 ∧
      ∀ (live : DomainMapping) (e : StatusError),
        capp.Spec.RouteSpec.Hostname ≠ "" →
        r.Get w.store capp.domainMappingKey = Except.ok live →
        live.Spec ≠ (PrepareKnativeDomainMapping capp).Spec →
        (r.Update w.store { live with Spec := (PrepareKnativeDomainMapping capp).Spec }).1
          = some e →
        IsConflict e = true →
        (CreateOrUpdateKnativeDomainMapping capp r w).1 = some e ∧
        new = [Call.get capp.domainMappingKey,
               Call.update { live with Spec := (PrepareKnativeDomainMapping capp).Spec }] := by
  by_cases hhost : capp.Spec.RouteSpec.Hostname = ""
  · refine ⟨[], ?_, by simp, by simp, ?_⟩
    · rw [createOrUpdate_empty capp r w hhost]; simp
    · intro live e h; exact absurd hhost h
  · cases hget : r.Get w.store capp.domainMappingKey with
    | error err =>
      rw [createOrUpdate_getError capp r w err hhost hget]
      by_cases hnf : IsNotFound err = true
      · rw [if_pos hnf, createKnativeDomainMapping_eq]
        refine ⟨[Call.get capp.domainMappingKey,
          Call.create (PrepareKnativeDomainMapping capp)], by simp,
          by simp [Call.isRead], by simp [Call.isWrite], ?_⟩
        intro live e _ h; cases h
      · rw [if_neg hnf]
        refine ⟨[Call.get capp.domainMappingKey], rfl,
          by simp [Call.isRead], by simp [Call.isWrite], ?_⟩
        intro live e _ h; cases h
    | ok live0 =>
      rw [createOrUpdate_getOk capp r w live0 hhost hget]
      by_cases hspec : live0.Spec = (PrepareKnativeDomainMapping capp).Spec
      · rw [updateKnativeDomainMapping_same _ _ _ _ hspec]
        refine ⟨[Call.get capp.domainMappingKey], rfl,
          by simp [Call.isRead], by simp [Call.isWrite], ?_⟩
        intro live e _ h hne
        cases h
        exact absurd hspec hne
      · rw [updateKnativeDomainMapping_diff _ _ _ _ hspec]
        refine ⟨[Call.get capp.domainMappingKey,
          Call.update { live0 with Spec := (PrepareKnativeDomainMapping capp).Spec }],
          by simp, by simp [Call.isRead], by simp [Call.isWrite], ?_⟩
        intro live e _ h _ hupd _
        cases h
        exact ⟨hupd, rfl⟩

/-- Witness of C4: a client that refuses every update as a conflict; the call log holds one
read and one update and the conflict error comes back. -/
theorem C4_bounded_calls_witness :
    IsConflict (conflictError (keyOf liveOther)) = true ∧
    (CreateOrUpdateKnativeDomainMapping (demoCapp.withHostname "foo") conflictingClient
        { store := [liveOther], calls := [] }).1
      = some (conflictError (keyOf liveOther)) ∧
    (CreateOrUpdateKnativeDomainMapping (demoCapp.withHostname "foo") conflictingClient
        { store := [liveOther], calls := [] }).2.calls
      = [Call.get { Namespace := "team-a", Name := "foo" }, Call.update liveSame] := by
  obtain ⟨new, hcalls, -, -, h⟩ :=
    C4_bounded_calls (demoCapp.withHostname "foo") conflictingClient
      { store := [liveOther], calls := [] }
  obtain ⟨herr, hnew⟩ :=
    h liveOther (conflictError (keyOf liveOther)) (by decide) rfl (by decide) rfl rfl
  subst hnew
  exact ⟨rfl, herr, hcalls⟩

/-! ## The desired object -/

/-- C5: `PrepareKnativeDomainMapping` is a function of the Capp alone.  Its result is named
after the Capp's route hostname, lies in the Capp's namespace, carries exactly the annotation
"dana.io/parent-capp" with the Capp's name as value, and its Spec.Ref has Kind "Service", the
Capp's name as Name and the Knative serving v1 group-version as APIVersion; two Capps that
agree on name, namespace and hostname yield equal results. -/
theorem C5_prepare (capp : Capp) :
    (PrepareKnativeDomainMapping capp).Name = capp.Spec.RouteSpec.Hostname ∧
    (PrepareKnativeDomainMapping capp).Namespace = capp.Namespace ∧
    (PrepareKnativeDomainMapping capp).Annotations = [("dana.io/parent-capp", capp.Name)] ∧
    (PrepareKnativeDomainMapping capp).Spec.Ref.Kind = "Service" ∧
    (PrepareKnativeDomainMapping capp).Spec.Ref.Name = capp.Name ∧
    (PrepareKnativeDomainMapping capp).Spec.Ref.APIVersion
      = knativev1.SchemeGroupVersion.String ∧
    knativev1.SchemeGroupVersion.String = "serving.knative.dev/v1" ∧
    ∀ other : Capp,
      capp.Name = other.Name → capp.Namespace = other.Namespace →
      capp.Spec.RouteSpec.Hostname = other.Spec.RouteSpec.Hostname →
      PrepareKnativeDomainMapping capp = PrepareKnativeDomainMapping other := by
  refine ⟨rfl, rfl, rfl, rfl, rfl, rfl, by decide, ?_⟩
  intro other h1 h2 h3
  unfold PrepareKnativeDomainMapping
  rw [h1, h2, h3]

/-- Witness of C5: two Capps that differ in resource version, labels and workload settings
and agree on name, namespace and hostname. -/
theorem C5_prepare_witness :
    demoCapp.withHostname "foo"
      ≠ { demoCapp.withHostname "foo" with
          ResourceVersion := "8", Labels := [("x", "y")],
          Spec := { Image := "httpd", ScaleMetric := "rps",
                    RouteSpec := { Hostname := "foo", TlsEnabled := true } } } ∧
    PrepareKnativeDomainMapping (demoCapp.withHostname "foo")
      = PrepareKnativeDomainMapping
          { demoCapp.withHostname "foo" with
            ResourceVersion := "8", Labels := [("x", "y")],
            Spec := { Image := "httpd", ScaleMetric := "rps",
                      RouteSpec := { Hostname := "foo", TlsEnabled := true } } } :=
  ⟨by decide,
   (C5_prepare (demoCapp.withHostname "foo")).2.2.2.2.2.2.2
      { demoCapp.withHostname "foo" with
        ResourceVersion := "8", Labels := [("x", "y")],
        Spec := { Image := "httpd", ScaleMetric := "rps",
                  RouteSpec := { Hostname := "foo", TlsEnabled := true } } }
      rfl rfl rfl⟩

/-! ## Delete -/

/-- C6, refuted as stated for every store: on a store that accepts the delete and keeps the
object readable, the object is read, exactly one delete of it is issued and succeeds, the
function returns nil, and the store still holds the object at (namespace, hostname). -/
theorem C6_counterexample :
    (demoCapp.withHostname "foo").Spec.RouteSpec.Hostname ≠ "" ∧
    lingeringClient.Get [liveSame] (demoCapp.withHostname "foo").domainMappingKey
      = Except.ok liveSame ∧
    (lingeringClient.Delete [liveSame] liveSame).1 = none ∧
    DeleteKnativeDomainMapping (demoCapp.withHostname "foo") lingeringClient
        { store := [liveSame], calls := [] }
      = (none, { store := [liveSame],
                 calls := [Call.get { Namespace := "team-a", Name := "foo" },
                           Call.delete liveSame] }) ∧
    lingeringClient.Get
        (DeleteKnativeDomainMapping (demoCapp.withHostname "foo") lingeringClient
          { store := [liveSame], calls := [] }).2.store
        { Namespace := "team-a", Name := "foo" }
      = Except.ok liveSame ∧
    ¬ lingeringClient.Absent
        (DeleteKnativeDomainMapping (demoCapp.withHostname "foo") lingeringClient
          { store := [liveSame], calls := [] }).2.store
        { Namespace := "team-a", Name := "foo" } := by
  refine ⟨by decide, rfl, rfl, rfl, rfl, ?_⟩
  rintro ⟨e, he, -⟩
  have hok : lingeringClient.Get
      (DeleteKnativeDomainMapping (demoCapp.withHostname "foo") lingeringClient
        { store := [liveSame], calls := [] }).2.store
      { Namespace := "team-a", Name := "foo" } = Except.ok liveSame := rfl
  rw [hok] at he
  cases he

/-- C6, amended: for a Capp with a non-empty hostname and every store,
`DeleteKnativeDomainMapping` reads the object at (namespace, hostname); when the read answers
not-found it returns nil and the read is its only call; when the read answers an object it
issues exactly one delete, of that object, and when that delete succeeds it returns nil; if
moreover the store files objects under their own identity and holds nothing at the identity of
an object after a successful delete of it, nothing is held at (namespace, hostname)
afterwards. -/
theorem C6_delete {σ : Type} (capp : Capp) (r : Client σ) (w : World σ)
    (hhost : capp.Spec.RouteSpec.Hostname ≠ "") :
    (∀ e : StatusError,
      r.Get w.store capp.domainMappingKey = Except.error e → IsNotFound e = true →
      DeleteKnativeDomainMapping capp r w
        = (none, { store := w.store, calls := w.calls ++ [Call.get capp.domainMappingKey] })) ∧
    (∀ live : DomainMapping,
      r.Get w.store capp.domainMappingKey = Except.ok live →
      DeleteKnativeDomainMapping capp r w
        = ((r.Delete w.store live).1,
            { store := (r.Delete w.store live).2,
              calls := w.calls ++ [Call.get capp.domainMappingKey, Call.delete live] }) ∧
      ((r.Delete w.store live).1 = none →
        (DeleteKnativeDomainMapping capp r w).1 = none ∧
        (r.GetByKey → r.DeleteRemoves →
          r.Absent (DeleteKnativeDomainMapping capp r w).2.store capp.domainMappingKey))) := by
  constructor
  · intro e hget hnf
    rw [delete_getError capp r w e hhost hget, if_pos hnf]
  · intro live hget
    rw [delete_getOk capp r w live hhost hget]
    refine ⟨rfl, fun hdel => ⟨hdel, fun hk hrm => ?_⟩⟩
    have hkey : keyOf live = capp.domainMappingKey := hk _ _ _ hget
    have hpair : r.Delete w.store live = (none, (r.Delete w.store live).2) := by
      rw [← hdel]
    have := hrm _ _ _ hpair
    rw [hkey] at this
    exact this

/-- Witness of the amended C6 on the reference store, which meets both store conditions: the
object present is deleted and nothing is left at its identity; on the empty store the function
returns nil after the read. -/
theorem C6_delete_witness :
    (demoCapp.withHostname "foo").Spec.RouteSpec.Hostname ≠ "" ∧
    DeleteKnativeDomainMapping (demoCapp.withHostname "foo") memClient emptyWorld
      = (none, { store := [], calls := [Call.get { Namespace := "team-a", Name := "foo" }] }) ∧
    DeleteKnativeDomainMapping (demoCapp.withHostname "foo") memClient
        { store := [liveSame], calls := [] }
      = (none, { store := [],
                 calls := [Call.get { Namespace := "team-a", Name := "foo" },
                           Call.delete liveSame] }) ∧
    memClient.Absent
      (DeleteKnativeDomainMapping (demoCapp.withHostname "foo") memClient
        { store := [liveSame], calls := [] }).2.store
      { Namespace := "team-a", Name := "foo" } :=
  ⟨by decide,
   (C6_delete (demoCapp.withHostname "foo") memClient emptyWorld (by decide)).1
      (notFoundError { Namespace := "team-a", Name := "foo" }) rfl rfl,
   ((C6_delete (demoCapp.withHostname "foo") memClient
      { store := [liveSame], calls := [] } (by decide)).2 liveSame rfl).1,
   (((C6_delete (demoCapp.withHostname "foo") memClient
      { store := [liveSame], calls := [] } (by decide)).2 liveSame rfl).2 rfl).2
      memClient_getByKey memClient_deleteRemoves⟩

/-- C7, the code at the failing input: the object is read, the delete answers not-found (the
object vanished between the read and the delete), and `DeleteKnativeDomainMapping` returns
that not-found error, where the claim has it return nil; the not-found answer of the read, a
few lines above in the same function, is what the function does turn into nil. -/
theorem C7_delete_not_found_is_returned :
    (demoCapp.withHostname "foo").Spec.RouteSpec.Hostname ≠ "" ∧
    vanishingClient.Get [liveSame] (demoCapp.withHostname "foo").domainMappingKey
      = Except.ok liveSame ∧
    (vanishingClient.Delete [liveSame] liveSame).1
      = some (notFoundError (keyOf liveSame)) ∧
    IsNotFound (notFoundError (keyOf liveSame)) = true ∧
    DeleteKnativeDomainMapping (demoCapp.withHostname "foo") vanishingClient
        { store := [liveSame], calls := [] }
      = (some (notFoundError (keyOf liveSame)),
          { store := [liveSame],
            calls := [Call.get { Namespace := "team-a", Name := "foo" },
                      Call.delete liveSame] }) ∧
    (DeleteKnativeDomainMapping (demoCapp.withHostname "foo") vanishingClient
        { store := [liveSame], calls := [] }).1 ≠ none ∧
    (DeleteKnativeDomainMapping (demoCapp.withHostname "foo") memClient emptyWorld).1
      = none := by
  refine ⟨by decide, rfl, rfl, rfl, rfl, ?_, rfl⟩
  intro h
  cases h

/-! ## Successive passes -/

theorem keyOf_prepare (capp : Capp) :
    keyOf (PrepareKnativeDomainMapping capp) = capp.domainMappingKey := rfl

theorem runPass_empty_hostname {σ : Type} (r : Client σ) (capp : Capp)
    (h : capp.Spec.RouteSpec.Hostname = "") (ops : List SyncOp) (w : World σ) :
    runPass r capp ops w = some w := by
  induction ops with
  | nil => rfl
  | cons op rest ih =>
    unfold runPass
    cases op
    · simp only [runOp, createOrUpdate_empty capp r w h]
      exact ih
    · simp only [runOp, delete_empty capp r w h]
      exact ih

/-- C8, refuted as stated: on the reference store, with the hostname going from empty to
"foo" to empty, the DomainMapping is absent after the first pass, exists after the second, and
still exists after the third, whichever of the two entry points the third pass invokes. -/
theorem C8_counterexample :
    runPass memClient (demoCapp.withHostname "") [SyncOp.createOrUpdate] emptyWorld
      = some emptyWorld ∧
    memClient.Get emptyWorld.store { Namespace := "team-a", Name := "foo" }
      = Except.error (notFoundError { Namespace := "team-a", Name := "foo" }) ∧
    runPass memClient (demoCapp.withHostname "foo") [SyncOp.createOrUpdate] emptyWorld
      = some { store := [PrepareKnativeDomainMapping (demoCapp.withHostname "foo")],
               calls := [Call.get { Namespace := "team-a", Name := "foo" },
                         Call.create (PrepareKnativeDomainMapping
                           (demoCapp.withHostname "foo"))] } ∧
    (∀ ops ∈ [[SyncOp.createOrUpdate], [SyncOp.delete],
              [SyncOp.createOrUpdate, SyncOp.delete],
              [SyncOp.delete, SyncOp.createOrUpdate]],
      ∃ w3 : World Store,
        runPass memClient (demoCapp.withHostname "") ops
            { store := [PrepareKnativeDomainMapping (demoCapp.withHostname "foo")],
              calls := [Call.get { Namespace := "team-a", Name := "foo" },
                        Call.create (PrepareKnativeDomainMapping
                          (demoCapp.withHostname "foo"))] }
          = some w3 ∧
        memClient.Get w3.store { Namespace := "team-a", Name := "foo" }
          = Except.ok (PrepareKnativeDomainMapping (demoCapp.withHostname "foo")) ∧
        ¬ memClient.Absent w3.store { Namespace := "team-a", Name := "foo" }) := by
  refine ⟨rfl, rfl, rfl, ?_⟩
  intro ops _
  refine ⟨_, runPass_empty_hostname memClient (demoCapp.withHostname "") rfl ops _, rfl, ?_⟩
  rintro ⟨e, he, -⟩
  have hok : memClient.Get [PrepareKnativeDomainMapping (demoCapp.withHostname "foo")]
      { Namespace := "team-a", Name := "foo" }
      = Except.ok (PrepareKnativeDomainMapping (demoCapp.withHostname "foo")) := rfl
  rw [hok] at he
  cases he

/-- C8, amended: on a store that reads back what was written and holds nothing at (namespace,
h), with the hostname going from empty to a non-empty h to empty: the first pass issues no
call and leaves the store as it was, the second pass, when it succeeds, leaves the desired
DomainMapping at (namespace, h), and the third pass again issues no call and leaves the store
as it was, so the DomainMapping still exists; a pass on a Capp with an empty hostname is any
sequence of the two entry points. -/
theorem C8_cleared_hostname_keeps_mapping {σ : Type} (capp : Capp) (r : Client σ)
    (w : World σ) (h : String) (ops1 ops3 : List SyncOp) (hh : h ≠ "")
    (hrb : r.ReadsBackWrites)
    (habs : r.Absent w.store (capp.withHostname h).domainMappingKey)
    (hok : (CreateOrUpdateKnativeDomainMapping (capp.withHostname h) r w).1 = none) :
    runPass r (capp.withHostname "") ops1 w = some w ∧
    r.Get (CreateOrUpdateKnativeDomainMapping (capp.withHostname h) r w).2.store
        (capp.withHostname h).domainMappingKey
      = Except.ok (PrepareKnativeDomainMapping (capp.withHostname h)) ∧
    runPass r (capp.withHostname "") ops3
        (CreateOrUpdateKnativeDomainMapping (capp.withHostname h) r w).2
      = some (CreateOrUpdateKnativeDomainMapping (capp.withHostname h) r w).2 := by
  refine ⟨runPass_empty_hostname r _ rfl ops1 w, ?_, runPass_empty_hostname r _ rfl ops3 _⟩
  obtain ⟨e, hget, hnf⟩ := habs
  have hhost : (capp.withHostname h).Spec.RouteSpec.Hostname ≠ "" := hh
  rw [createOrUpdate_getError _ r w e hhost hget, if_pos hnf,
    createKnativeDomainMapping_eq] at hok ⊢
  simp only at hok ⊢
  have hpair : r.Create w.store (PrepareKnativeDomainMapping (capp.withHostname h))
      = (none, (r.Create w.store (PrepareKnativeDomainMapping (capp.withHostname h))).2) := by
    rw [← hok]
  have := hrb.1 _ _ _ hpair
  rw [keyOf_prepare] at this
  exact this

/-- Witness of the amended C8 on the reference store with h = "foo". -/
theorem C8_cleared_hostname_keeps_mapping_witness :
    memClient.Absent emptyWorld.store (demoCapp.withHostname "foo").domainMappingKey ∧
    memClient.Get
        (CreateOrUpdateKnativeDomainMapping (demoCapp.withHostname "foo") memClient
          emptyWorld).2.store
        (demoCapp.withHostname "foo").domainMappingKey
      = Except.ok (PrepareKnativeDomainMapping (demoCapp.withHostname "foo")) ∧
    runPass memClient (demoCapp.withHostname "") [SyncOp.createOrUpdate, SyncOp.delete]
        (CreateOrUpdateKnativeDomainMapping (demoCapp.withHostname "foo") memClient
          emptyWorld).2
      = some (CreateOrUpdateKnativeDomainMapping (demoCapp.withHostname "foo") memClient
          emptyWorld).2 :=
  ⟨⟨notFoundError { Namespace := "team-a", Name := "foo" }, rfl, rfl⟩,
   (C8_cleared_hostname_keeps_mapping demoCapp memClient emptyWorld "foo"
      [SyncOp.createOrUpdate] [SyncOp.createOrUpdate, SyncOp.delete] (by decide)
      memClient_readsBackWrites
      ⟨notFoundError { Namespace := "team-a", Name := "foo" }, rfl, rfl⟩ rfl).2⟩

/-- C9: on a store that files objects under their own identity and reads back exactly what was
last written, when a first run of `CreateOrUpdateKnativeDomainMapping` returns nil, a second
run right after it returns nil, issues no call other than the read (none at all when the
hostname is empty), and leaves the store as the first run left it. -/
theorem C9_idempotent {σ : Type} (capp : Capp) (r : Client σ) (w : World σ)
    (hk : r.GetByKey) (hrb : r.ReadsBackWrites)
    (hfirst : (CreateOrUpdateKnativeDomainMapping capp r w).1 = none) :
    CreateOrUpdateKnativeDomainMapping capp r (CreateOrUpdateKnativeDomainMapping capp r w).2
      = (none,
          { store := (CreateOrUpdateKnativeDomainMapping capp r w).2.store,
            calls := (CreateOrUpdateKnativeDomainMapping capp r w).2.calls ++
              (if capp.Spec.RouteSpec.Hostname = "" then []
               else [Call.get capp.domainMappingKey]) }) := by
  by_cases hhost : capp.Spec.RouteSpec.Hostname = ""
  · rw [createOrUpdate_empty capp r w hhost, createOrUpdate_empty capp r w hhost, if_pos hhost]
    simp
  · rw [if_neg hhost]
    cases hget : r.Get w.store capp.domainMappingKey with
    | error err =>
      rw [createOrUpdate_getError capp r w err hhost hget] at hfirst ⊢
      by_cases hnf : IsNotFound err = true
      · rw [if_pos hnf, createKnativeDomainMapping_eq] at hfirst ⊢
        simp only at hfirst
        have hpair : r.Create w.store (PrepareKnativeDomainMapping capp)
            = (none, (r.Create w.store (PrepareKnativeDomainMapping capp)).2) := by
          rw [← hfirst]
        have hback := hrb.1 _ _ _ hpair
        rw [keyOf_prepare] at hback
        rw [createOrUpdate_getOk capp r _ _ hhost hback,
          updateKnativeDomainMapping_same _ _ _ _ rfl]
      · rw [if_neg hnf] at hfirst
        cases hfirst
    | ok live =>
      rw [createOrUpdate_getOk capp r w live hhost hget] at hfirst ⊢
      by_cases hspec : live.Spec = (PrepareKnativeDomainMapping capp).Spec
      · rw [updateKnativeDomainMapping_same _ _ _ _ hspec]
        show CreateOrUpdateKnativeDomainMapping capp r
            { store := w.store, calls := w.calls ++ [Call.get capp.domainMappingKey] } = _
        rw [createOrUpdate_getOk capp r
            { store := w.store, calls := w.calls ++ [Call.get capp.domainMappingKey] }
            live hhost hget,
          updateKnativeDomainMapping_same _ _ _ _ hspec]
      · rw [updateKnativeDomainMapping_diff _ _ _ _ hspec] at hfirst ⊢
        simp only at hfirst
        have hpair :
            r.Update w.store { live with Spec := (PrepareKnativeDomainMapping capp).Spec }
              = (none, (r.Update w.store
                  { live with Spec := (PrepareKnativeDomainMapping capp).Spec }).2) := by
          rw [← hfirst]
        have hback := hrb.2 _ _ _ hpair
        have hkey : keyOf live = capp.domainMappingKey := hk _ _ _ hget
        have hkey1 : keyOf { live with Spec := (PrepareKnativeDomainMapping capp).Spec }
            = capp.domainMappingKey := hkey
        rw [hkey1] at hback
        rw [createOrUpdate_getOk capp r _ _ hhost hback,
          updateKnativeDomainMapping_same (PrepareKnativeDomainMapping capp)
            { live with Spec := (PrepareKnativeDomainMapping capp).Spec } r _ rfl]

/-- Witness of C9 on the reference store: the first run updates a drifted object, the second
only reads. -/
theorem C9_idempotent_witness :
    (CreateOrUpdateKnativeDomainMapping (demoCapp.withHostname "foo") memClient
        { store := [liveOther], calls := [] }).1 = none ∧
    CreateOrUpdateKnativeDomainMapping (demoCapp.withHostname "foo") memClient
        (CreateOrUpdateKnativeDomainMapping (demoCapp.withHostname "foo") memClient
          { store := [liveOther], calls := [] }).2
      = (none,
          { store := [liveSame],
            calls := [Call.get { Namespace := "team-a", Name := "foo" },
                      Call.update liveSame,
                      Call.get { Namespace := "team-a", Name := "foo" }] }) :=
  ⟨rfl,
   C9_idempotent (demoCapp.withHostname "foo") memClient
      { store := [liveOther], calls := [] } memClient_getByKey memClient_readsBackWrites rfl⟩

theorem createOrUpdate_annotatedOnlyAt {σ : Type} (capp d : Capp) (r : Client σ)
    (w w1 : World σ) (hk : r.GetByKey) (hloc : r.WritesAreLocal)
    (hd : d.Namespace = capp.Namespace ∧
      d.Spec.RouteSpec.Hostname = capp.Spec.RouteSpec.Hostname)
    (hstep : CreateOrUpdateKnativeDomainMapping d r w = (none, w1))
    (hinv : r.AnnotatedOnlyAt w.store capp.Name capp.domainMappingKey) :
    r.AnnotatedOnlyAt w1.store capp.Name capp.domainMappingKey := by
  have hdk : d.domainMappingKey = capp.domainMappingKey := by
    unfold Capp.domainMappingKey
    rw [hd.1, hd.2]
  by_cases hhost : d.Spec.RouteSpec.Hostname = ""
  · rw [createOrUpdate_empty d r w hhost] at hstep
    cases hstep
    exact hinv
  · cases hget : r.Get w.store d.domainMappingKey with
    | error err =>
      rw [createOrUpdate_getError d r w err hhost hget] at hstep
      by_cases hnf : IsNotFound err = true
      · rw [if_pos hnf, createKnativeDomainMapping_eq] at hstep
        have hpair : r.Create w.store (PrepareKnativeDomainMapping d)
            = (none, w1.store) := by
          have h1 := congrArg Prod.fst hstep
          have h2 := congrArg (fun p => p.2.store) hstep
          simp only at h1 h2
          rw [← h1, ← h2]
        intro k obj hobj hann
        by_cases hkk : k = keyOf (PrepareKnativeDomainMapping d)
        · rw [hkk, keyOf_prepare, hdk]
        · rw [hloc.1 _ _ _ k hpair hkk] at hobj
          exact hinv k obj hobj hann
      · rw [if_neg hnf] at hstep
        cases hstep
    | ok live =>
      rw [createOrUpdate_getOk d r w live hhost hget] at hstep
      by_cases hspec : live.Spec = (PrepareKnativeDomainMapping d).Spec
      · rw [updateKnativeDomainMapping_same _ _ _ _ hspec] at hstep
        cases hstep
        exact hinv
      · rw [updateKnativeDomainMapping_diff _ _ _ _ hspec] at hstep
        have hpair :
            r.Update w.store { live with Spec := (PrepareKnativeDomainMapping d).Spec }
              = (none, w1.store) := by
          have h1 := congrArg Prod.fst hstep
          have h2 := congrArg (fun p => p.2.store) hstep
          simp only at h1 h2
          rw [← h1, ← h2]
        have hkey0 : keyOf live = d.domainMappingKey := hk _ _ _ hget
        have hkey : keyOf { live with Spec := (PrepareKnativeDomainMapping d).Spec }
            = d.domainMappingKey := hkey0
        intro k obj hobj hann
        by_cases hkk : k = keyOf { live with Spec := (PrepareKnativeDomainMapping d).Spec }
        · rw [hkk, hkey, hdk]
        · rw [hloc.2 _ _ _ k hpair hkk] at hobj
          exact hinv k obj hobj hann

theorem syncAll_annotatedOnlyAt {σ : Type} (capp : Capp) (r : Client σ)
    (hk : r.GetByKey) (hloc : r.WritesAreLocal) (capps : List Capp) :
    ∀ (w w1 : World σ),
      (∀ d ∈ capps, d.Namespace = capp.Namespace ∧
        d.Spec.RouteSpec.Hostname = capp.Spec.RouteSpec.Hostname) →
      syncAll r capps w = some w1 →
      r.AnnotatedOnlyAt w.store capp.Name capp.domainMappingKey →
      r.AnnotatedOnlyAt w1.store capp.Name capp.domainMappingKey := by
  induction capps with
  | nil =>
    intro w w1 _ hrun hinv
    simp only [syncAll, Option.some.injEq] at hrun
    rw [← hrun]
    exact hinv
  | cons d rest ih =>
    intro w w1 hfix hrun hinv
    unfold syncAll at hrun
    cases hstep : CreateOrUpdateKnativeDomainMapping d r w with
    | mk e w2 =>
      rw [hstep] at hrun
      cases e with
      | some err => simp at hrun
      | none =>
        simp only at hrun
        exact ih w2 w1 (fun x hx => hfix x (List.mem_cons_of_mem _ hx)) hrun
          (createOrUpdate_annotatedOnlyAt capp d r w w2 hk hloc
            (hfix d (List.mem_cons_self _ _)) hstep hinv)

theorem memClient_noneAnnotated_nil (owner : String) : memClient.NoneAnnotated [] owner := by
  intro key obj h
  rw [memClient_get] at h
  cases h

/-- C10, refuted as stated: on the reference store, starting empty, two successful passes for
the Capp `demo` of namespace `team-a`, first with hostname "a" and then with hostname "b",
leave two DomainMappings of that namespace annotated with `demo`. -/
theorem C10_counterexample :
    (demoCapp.withHostname "a").Name = (demoCapp.withHostname "b").Name ∧
    (demoCapp.withHostname "a").Namespace = (demoCapp.withHostname "b").Namespace ∧
    memClient.NoneAnnotated emptyWorld.store "demo" ∧
    (syncAll memClient [demoCapp.withHostname "a", demoCapp.withHostname "b"]
        emptyWorld).map World.store
      = some [PrepareKnativeDomainMapping (demoCapp.withHostname "b"),
              PrepareKnativeDomainMapping (demoCapp.withHostname "a")] ∧
    OwnedBy "team-a" "demo" (PrepareKnativeDomainMapping (demoCapp.withHostname "a")) ∧
    OwnedBy "team-a" "demo" (PrepareKnativeDomainMapping (demoCapp.withHostname "b")) ∧
    ¬ memClient.AtMostOneOwned
        [PrepareKnativeDomainMapping (demoCapp.withHostname "b"),
         PrepareKnativeDomainMapping (demoCapp.withHostname "a")] "team-a" "demo" := by
  refine ⟨rfl, rfl, memClient_noneAnnotated_nil "demo", rfl, by decide, by decide, ?_⟩
  intro h
  have hkeys := h { Namespace := "team-a", Name := "a" } { Namespace := "team-a", Name := "b" }
    (PrepareKnativeDomainMapping (demoCapp.withHostname "a"))
    (PrepareKnativeDomainMapping (demoCapp.withHostname "b"))
    rfl rfl (by decide) (by decide)
  exact absurd hkeys (by decide)

/-- C10, amended: on a store that files objects under their own identity and whose writes
touch only the identity written, starting from a store holding no DomainMapping annotated with
the Capp's name, after any finite sequence of successful passes for that Capp with its name,
namespace and hostname all fixed, at most one identity holds a DomainMapping of the Capp's
namespace annotated with the Capp's name, and every object so annotated lies at (namespace,
hostname). -/
theorem C10_fixed_hostname_at_most_one {σ : Type} (capp : Capp) (r : Client σ)
    (capps : List Capp) (w w1 : World σ) (hk : r.GetByKey) (hloc : r.WritesAreLocal)
    (hfix : ∀ d ∈ capps, d.Name = capp.Name ∧ d.Namespace = capp.Namespace ∧
      d.Spec.RouteSpec.Hostname = capp.Spec.RouteSpec.Hostname)
    (hnone : r.NoneAnnotated w.store capp.Name)
    (hrun : syncAll r capps w = some w1) :
    r.AtMostOneOwned w1.store capp.Namespace capp.Name ∧
    r.AnnotatedOnlyAt w1.store capp.Name capp.domainMappingKey := by
  have hinv0 : r.AnnotatedOnlyAt w.store capp.Name capp.domainMappingKey :=
    fun k obj hobj hann => absurd hann (hnone k obj hobj)
  have hinv := syncAll_annotatedOnlyAt capp r hk hloc capps w w1
    (fun d hd => ⟨(hfix d hd).2.1, (hfix d hd).2.2⟩) hrun hinv0
  refine ⟨?_, hinv⟩
  intro k1 k2 o1 o2 h1 h2 ho1 ho2
  rw [hinv k1 o1 h1 ho1.2, hinv k2 o2 h2 ho2.2]

/-- Witness of the amended C10 on the reference store: three passes with hostname "foo",
the Capp's other fields changing in between. -/
theorem C10_fixed_hostname_at_most_one_witness :
    (syncAll memClient
        [demoCapp.withHostname "foo",
         { demoCapp.withHostname "foo" with ResourceVersion := "8" },
         demoCapp.withHostname "foo"] emptyWorld).map World.store
      = some [PrepareKnativeDomainMapping (demoCapp.withHostname "foo")] ∧
    memClient.AtMostOneOwned [PrepareKnativeDomainMapping (demoCapp.withHostname "foo")]
      "team-a" "demo" := by
  refine ⟨rfl, ?_⟩
  refine (C10_fixed_hostname_at_most_one (demoCapp.withHostname "foo") memClient
    [demoCapp.withHostname "foo",
     { demoCapp.withHostname "foo" with ResourceVersion := "8" },
     demoCapp.withHostname "foo"] emptyWorld
    { store := [PrepareKnativeDomainMapping (demoCapp.withHostname "foo")],
      calls := [Call.get { Namespace := "team-a", Name := "foo" },
                Call.create (PrepareKnativeDomainMapping (demoCapp.withHostname "foo")),
                Call.get { Namespace := "team-a", Name := "foo" },
                Call.get { Namespace := "team-a", Name := "foo" }] }
    memClient_getByKey memClient_writesAreLocal ?_
    (memClient_noneAnnotated_nil "demo") rfl).1
  intro d hd
  simp only [List.mem_cons, List.mem_singleton, List.not_mem_nil, or_false] at hd
  rcases hd with rfl | rfl | rfl <;> exact ⟨rfl, rfl, rfl⟩

end CappOperator
